import Mathlib

/-!
Verification development for the EGAP factory event pipeline.

We shallowly embed the two core programs:
  * the Ingress Gateway's `POST /webhook` handler (Fastify service), and
  * the Orchestrator Worker's `handleMessage` queue-message handler,
together with the persistence store (Agent, Task, UsageLog, TraceSpan
tables) they write to.  JavaScript runtime values are modelled by `JVal`
(JSON values; `Option JVal` stands for a possibly-`undefined` value).
Nondeterministic effects — wall-clock reads (`Date.now()`), UUID minting
(`randomUUID()`), store-operation failures and publish failures — are
supplied by oracles, so each handler is a pure function of its inputs,
its oracle and the starting store state.  Serialization over the queue is
abstracted: the gateway's published message object is delivered to the
worker as the same JSON value.
-/

namespace EGAP

/-- JSON values (the worker parses message bodies with `JSON.parse`;
the gateway receives a parsed JSON request body). -/
inductive JVal where
  | jNull : JVal
  | jBool : Bool → JVal
  | jNum : Int → JVal
  | jStr : String → JVal
  | jArr : List JVal → JVal
  | jObj : List (String × JVal) → JVal
deriving Repr

mutual

/-- Structural equality of JSON values. -/
def JVal.beq : JVal → JVal → Bool
  | .jNull, .jNull => true
  | .jBool a, .jBool b => a == b
  | .jNum a, .jNum b => a == b
  | .jStr a, .jStr b => a == b
  | .jArr a, .jArr b => JVal.beqList a b
  | .jObj a, .jObj b => JVal.beqFields a b
  | _, _ => false

def JVal.beqList : List JVal → List JVal → Bool
  | [], [] => true
  | x :: xs, y :: ys => JVal.beq x y && JVal.beqList xs ys
  | _, _ => false

def JVal.beqFields : List (String × JVal) → List (String × JVal) → Bool
  | [], [] => true
  | (k, v) :: xs, (l, w) :: ys => k == l && JVal.beq v w && JVal.beqFields xs ys
  | _, _ => false

end

instance : BEq JVal := ⟨JVal.beq⟩

/-- JavaScript truthiness of a defined value. -/
def truthy : JVal → Bool
  | .jNull => false
  | .jBool b => b
  | .jNum n => n != 0
  | .jStr s => s != ""
  | .jArr _ => true
  | .jObj _ => true

/-- JavaScript truthiness of a possibly-`undefined` value. -/
def optTruthy : Option JVal → Bool
  | none => false
  | some v => truthy v

/-- Truthiness of a possibly-`undefined` string (message attributes). -/
def strTruthy : Option String → Bool
  | none => false
  | some s => s != ""

/-- Property access `v.k` on a value known not to be `null` (on `null`
or `undefined` JavaScript throws; the handlers below model that throw
explicitly at the two places it can occur). Non-objects yield
`undefined`. -/
def JVal.getField : JVal → String → Option JVal
  | .jObj fs, k => fs.lookup k
  | _, _ => none

/-- `v || d` for a possibly-`undefined` `v` (JavaScript or-default). -/
def jsOr (v : Option JVal) (d : JVal) : JVal :=
  match v with
  | some x => if truthy x then x else d
  | none => d

/-- `v ?? d` (JavaScript nullish coalescing). -/
def jsNullish (v : Option JVal) (d : JVal) : JVal :=
  match v with
  | some .jNull => d
  | some x => x
  | none => d

mutual

/-- `JSON.stringify` (string escaping elided; no `undefined` occurs
inside a parsed `JVal`). -/
def jsonStringify : JVal → String
  | .jNull => "null"
  | .jBool b => if b then "true" else "false"
  | .jNum n => toString n
  | .jStr s => "\"" ++ s ++ "\""
  | .jArr xs => "[" ++ jsonStringifyList xs ++ "]"
  | .jObj fs => "\x7b" ++ jsonStringifyFields fs ++ "\x7d"

def jsonStringifyList : List JVal → String
  | [] => ""
  | [x] => jsonStringify x
  | x :: xs => jsonStringify x ++ "," ++ jsonStringifyList xs

def jsonStringifyFields : List (String × JVal) → String
  | [] => ""
  | [(k, v)] => "\"" ++ k ++ "\":" ++ jsonStringify v
  | (k, v) :: fs => "\"" ++ k ++ "\":" ++ jsonStringify v ++ "," ++ jsonStringifyFields fs

end

mutual

/-- JavaScript `String(v)` conversion, as used by template literals. -/
def jsString : JVal → String
  | .jNull => "null"
  | .jBool b => if b then "true" else "false"
  | .jNum n => toString n
  | .jStr s => s
  | .jArr xs => jsStringArr xs
  | .jObj _ => "[object Object]"

def jsStringArr : List JVal → String
  | [] => ""
  | [x] => jsString x
  | x :: xs => jsString x ++ "," ++ jsStringArr xs

end

/-- Whether a value is JavaScript `null` (property access on it throws). -/
def JVal.isNull : JVal → Bool
  | .jNull => true
  | _ => false

/-- `data.type === "RESUME"` (strict equality against a string). -/
def isResumeType : Option JVal → Bool
  | some (.jStr s) => s == "RESUME"
  | _ => false

/-- Strict equality of a runtime value against a string column (the
Prisma `where \x7b role: source \x7d` match). -/
def jvalEqStr : JVal → String → Bool
  | .jStr s, t => s == t
  | _, _ => false

/-- Agent rows (`role` is the routing key; other columns unused here). -/
structure Agent where
  id : String
  name : String
  role : String
deriving Repr, DecidableEq

/-- Task rows. Ids are store-generated; we model the generator as a
per-table counter, which preserves the store's id-uniqueness guarantee. -/
structure Task where
  id : Nat
  description : String
  inputPayload : JVal
  agentId : String
deriving Repr

/-- UsageLog rows. `costUsd` is exact decimal accounting, modelled in ℚ. -/
structure UsageLog where
  agentId : JVal
  action : String
  tokens : Nat
  costUsd : ℚ
  metadata : List (String × Option JVal)
deriving Repr

/-- TraceSpan rows. `status` defaults to "OK" at creation; `durationMs`
is set by the closing update. Metadata values may be `undefined`. -/
structure TraceSpan where
  id : String
  traceId : JVal
  parentId : Option String
  service : String
  operation : String
  durationMs : Option Int
  status : String
  metadata : List (String × Option JVal)
deriving Repr

/-- The persistence store. Lists record insertion order. -/
structure DB where
  agents : List Agent
  tasks : List Task
  usageLogs : List UsageLog
  spans : List TraceSpan
  nextTaskId : Nat
  nextSpanId : Nat
deriving Repr

/-- Insert a TraceSpan row with an explicitly supplied id. -/
def addSpan (db : DB) (s : TraceSpan) : DB :=
  { db with spans := db.spans ++ [s] }

/-- Store-generated span id (creates that omit `id` get a fresh default). -/
def autoSpanId (db : DB) : String :=
  "span_" ++ toString db.nextSpanId

/-- Insert a TraceSpan row with a store-generated id. -/
def addSpanAuto (db : DB) (s : String → TraceSpan) : DB :=
  { db with
    spans := db.spans ++ [s (autoSpanId db)]
    nextSpanId := db.nextSpanId + 1 }

/-- Whether a span with the given id exists (`update where id` targets). -/
def spanExists (db : DB) (i : String) : Bool :=
  db.spans.any (fun s => s.id == i)

/-- `prisma.traceSpan.update (where id)`: `none` models the thrown
record-not-found error. -/
def updateSpan (db : DB) (i : String) (f : TraceSpan → TraceSpan) : Option DB :=
  if spanExists db i then
    some { db with spans := db.spans.map (fun s => if s.id == i then f s else s) }
  else
    none

/-- Insert a Task row, consuming the store's id counter. -/
def addTask (db : DB) (t : Nat → Task) : DB :=
  { db with
    tasks := db.tasks ++ [t db.nextTaskId]
    nextTaskId := db.nextTaskId + 1 }

/-- Insert a UsageLog row. -/
def addUsage (db : DB) (u : UsageLog) : DB :=
  { db with usageLogs := db.usageLogs ++ [u] }

/-- A delivered queue message: the `JSON.parse` outcome of its data
(`none` = parse throws), its attribute map, and its delivery id. -/
structure Message where
  data : Option JVal
  attributes : List (String × String)
  id : String

/-- Nondeterministic inputs of one worker-handler run: whether the k-th
store operation throws, the k-th `Date.now()` reading, and the k-th
`randomUUID()` value. -/
structure WOracle where
  dbFails : Nat → Bool
  clock : Nat → Int
  uuid : Nat → String

/-- Outcome of one `handleMessage` run: final store, how often `ack` and
`nack` were called, the resolved traceId (the falsy `""` when unset),
whether the catch handler ran, and the root span id. -/
structure WResult where
  db : DB
  acks : Nat
  nacks : Nat
  traceId : JVal
  errored : Bool
  rootSpanId : String

/-- The worker's catch handler: if a truthy traceId was resolved,
best-effort update of the root span to ERROR (failures swallowed by
`.catch`), then `ack`. `clkIdx`/`dbIdx` are the next unconsumed oracle
indices at the throw site. -/
def catchPath (o : WOracle) (db : DB) (traceId : JVal) (rootSpanId : String)
    (rootStart : Int) (clkIdx dbIdx : Nat) : WResult :=
  if truthy traceId then
    let d := o.clock clkIdx - rootStart
    if o.dbFails dbIdx then ⟨db, 1, 0, traceId, true, rootSpanId⟩
    else
      match updateSpan db rootSpanId
          (fun s => { s with status := "ERROR", durationMs := some d }) with
      | none => ⟨db, 1, 0, traceId, true, rootSpanId⟩
      | some db' => ⟨db', 1, 0, traceId, true, rootSpanId⟩
  else ⟨db, 1, 0, traceId, true, rootSpanId⟩

/-- Closing root-span duration update on the worker's happy paths,
followed by `ack`; a thrown update diverts to the catch handler. -/
def finishRoot (o : WOracle) (db : DB) (traceId : JVal) (rootSpanId : String)
    (rootStart : Int) (clkIdx dbIdx : Nat) : WResult :=
  let d := o.clock clkIdx - rootStart
  if o.dbFails dbIdx then
    catchPath o db traceId rootSpanId rootStart (clkIdx + 1) (dbIdx + 1)
  else
    match updateSpan db rootSpanId (fun s => { s with durationMs := some d }) with
    | none => catchPath o db traceId rootSpanId rootStart (clkIdx + 1) (dbIdx + 1)
    | some db' => ⟨db', 1, 0, traceId, false, rootSpanId⟩

/-- RESUME branch after the optional usage insert: `resume_agent` child
span, then root-span close and `ack`. -/
def resumeTail (o : WOracle) (data : JVal) (db : DB) (traceId : JVal)
    (rootSpanId : String) (rootStart : Int) (dbIdx : Nat) : WResult :=
  let d := o.clock 1 - rootStart
  if o.dbFails dbIdx then
    catchPath o db traceId rootSpanId rootStart 2 (dbIdx + 1)
  else
    let db' := addSpanAuto db (fun i =>
      ⟨i, traceId, some rootSpanId, "orchestrator", "resume_agent", some d, "OK",
        [("taskId", data.getField "taskId")]⟩)
    finishRoot o db' traceId rootSpanId rootStart 2 (dbIdx + 1)

/-- The `data.type === "RESUME"` branch: fixed-cost usage accounting when
`data.agentId` is truthy, then the resume span and root close. -/
def resumeBranch (o : WOracle) (data : JVal) (db : DB) (traceId : JVal)
    (rootSpanId : String) (rootStart : Int) : WResult :=
  match data.getField "agentId" with
  | some av =>
    if truthy av then
      if o.dbFails 1 then
        catchPath o db traceId rootSpanId rootStart 1 2
      else
        let db' := addUsage db
          ⟨av, "resume", 50, 0.0005,
            [("taskId", data.getField "taskId"), ("traceId", some traceId)]⟩
        resumeTail o data db' traceId rootSpanId rootStart 2
    else resumeTail o data db traceId rootSpanId rootStart 1
  | none => resumeTail o data db traceId rootSpanId rootStart 1

/-- Agent matched: create the HITL Task, record the `task_create` span,
append the fixed-cost `tool_call` usage row, close the root span, `ack`. -/
def agentBranch (o : WOracle) (data source : JVal) (ag : Agent) (db : DB)
    (traceId : JVal) (rootSpanId : String) (rootStart : Int) : WResult :=
  let taskCreateStart := o.clock 3
  if o.dbFails 3 then
    catchPath o db traceId rootSpanId rootStart 4 4
  else
    let taskId := db.nextTaskId
    let db1 := addTask db (fun i =>
      ⟨i, "Signal from " ++ jsString source ++ ": " ++
          jsonStringify (jsNullish (data.getField "payload") data),
        data, ag.id⟩)
    let d := o.clock 4 - taskCreateStart
    if o.dbFails 4 then
      catchPath o db1 traceId rootSpanId rootStart 5 5
    else
      let db2 := addSpanAuto db1 (fun i =>
        ⟨i, traceId, some rootSpanId, "orchestrator", "task_create", some d, "OK",
          [("taskId", some (.jNum (taskId : Int))),
            ("agentName", some (.jStr ag.name))]⟩)
      if o.dbFails 5 then
        catchPath o db2 traceId rootSpanId rootStart 5 6
      else
        let db3 := addUsage db2
          ⟨.jStr ag.id, "tool_call", 120, 0.0012,
            [("taskId", some (.jNum (taskId : Int))), ("source", some source),
              ("traceId", some traceId)]⟩
        finishRoot o db3 traceId rootSpanId rootStart 5 6

/-- Normal-signal branch: resolve the source (`"unknown"` fallback),
`findFirst` an Agent whose role equals it, record the `agent_lookup`
span, then either the agent branch or a bare root close. -/
def normalBranch (o : WOracle) (data : JVal) (db : DB) (traceId : JVal)
    (rootSpanId : String) (rootStart : Int) : WResult :=
  let agentLookupStart := o.clock 1
  let source := jsOr (data.getField "source") (.jStr "unknown")
  if o.dbFails 1 then
    catchPath o db traceId rootSpanId rootStart 2 2
  else
    let agent := db.agents.find? (fun a => jvalEqStr source a.role)
    let d := o.clock 2 - agentLookupStart
    if o.dbFails 2 then
      catchPath o db traceId rootSpanId rootStart 3 3
    else
      let db1 := addSpanAuto db (fun i =>
        ⟨i, traceId, some rootSpanId, "orchestrator", "agent_lookup", some d, "OK",
          [("source", some source), ("found", some (.jBool agent.isSome))]⟩)
      match agent with
      | some ag => agentBranch o data source ag db1 traceId rootSpanId rootStart
      | none => finishRoot o db1 traceId rootSpanId rootStart 3 3

/-- `traceId = message.attributes?.traceId || data.traceId || randomUUID()`
(for `data` not null; the null throw is handled at the call site). -/
def resolveTid (o : WOracle) (attr : Option String) (data : JVal) : JVal :=
  if strTruthy attr then .jStr (attr.getD "")
  else jsOr (data.getField "traceId") (.jStr (o.uuid 1))

/-- The Orchestrator Worker's `handleMessage`, over one delivered message. -/
def handleMessage (o : WOracle) (msg : Message) (db : DB) : WResult :=
  let rootStart := o.clock 0
  let rootSpanId := o.uuid 0
  match msg.data with
  | none =>
    -- JSON.parse threw; the traceId is still the falsy initial ""
    catchPath o db (.jStr "") rootSpanId rootStart 1 0
  | some data =>
    let attr := msg.attributes.lookup "traceId"
    if !strTruthy attr && data.isNull then
      -- evaluating data.traceId on null throws a TypeError
      catchPath o db (.jStr "") rootSpanId rootStart 1 0
    else
      let traceId := resolveTid o attr data
      if o.dbFails 0 then
        catchPath o db traceId rootSpanId rootStart 1 1
      else
        let db1 := addSpan db
          ⟨rootSpanId, traceId, none, "orchestrator", "process_message", none, "OK",
            [("messageId", some (.jStr msg.id))]⟩
        if data.isNull then
          -- evaluating data.type on null throws a TypeError
          catchPath o db1 traceId rootSpanId rootStart 1 1
        else
          if isResumeType (data.getField "type") then
            resumeBranch o data db1 traceId rootSpanId rootStart
          else
            normalBranch o data db1 traceId rootSpanId rootStart

/-- A message published to the queue topic. -/
structure PubMessage where
  data : JVal
  attributes : List (String × String)

/-- Nondeterministic inputs of one gateway-request run. -/
structure GOracle where
  dbFails : Nat → Bool
  pubFails : Bool
  clock : Nat → Int
  uuidTrace : String
  uuidRoot : String
  pubMsgId : String
  receivedAt : String
  topicName : String

/-- The gateway's in-process audit counters. -/
structure Counters where
  totalReceived : Nat
  totalPublished : Nat
  totalFailed : Nat
deriving Repr, DecidableEq

/-- Gateway process state: store, counters, and the queue topic's
published messages (in publish order). -/
structure GState where
  db : DB
  counters : Counters
  queue : List PubMessage

/-- The webhook endpoint's possible HTTP replies. `internalError` is the
framework's default 500 when the awaited root-span insert throws. -/
inductive GResponse where
  | badRequest
  | ok (messageId traceId : String)
  | pubError
  | internalError
deriving Repr, DecidableEq

/-- Outcome of one `POST /webhook` request. -/
structure GResult where
  st : GState
  response : GResponse

/-- `!body || typeof body !== "object"` — the webhook reject test.
`typeof` is "object" exactly for null, arrays and plain objects, and
`!body` additionally rejects null; so objects and arrays are accepted. -/
def bodyAccepted : Option JVal → Bool
  | some (.jObj _) => true
  | some (.jArr _) => true
  | _ => false

/-- The gateway's catch branch around publish: count the failure,
best-effort ERROR close of the root span (swallowed), reply 500. -/
def gwCatch (o : GOracle) (db : DB) (c : Counters) (q : List PubMessage)
    (rootSpanId : String) (rootStart : Int) (clkIdx dbIdx : Nat) : GResult :=
  let c' := { c with totalFailed := c.totalFailed + 1 }
  let d := o.clock clkIdx - rootStart
  if o.dbFails dbIdx then ⟨⟨db, c', q⟩, .pubError⟩
  else
    match updateSpan db rootSpanId
        (fun s => { s with status := "ERROR", durationMs := some d }) with
    | none => ⟨⟨db, c', q⟩, .pubError⟩
    | some db' => ⟨⟨db', c', q⟩, .pubError⟩

/-- Body of `POST /webhook` once the body passed the object test. -/
def webhookAccepted (o : GOracle) (b : JVal) (st : GState) (rootStart : Int) : GResult :=
  let c1 := { st.counters with totalReceived := st.counters.totalReceived + 1 }
  let traceId := o.uuidTrace
  let source := jsOr (b.getField "source") (.jStr "unknown")
  let payload := jsOr (b.getField "payload") b
  let rootSpanId := o.uuidRoot
  if o.dbFails 0 then
    -- the awaited root-span insert threw before the try around publish;
    -- the rejection escapes to the framework's default 500 handler
    ⟨⟨st.db, c1, st.queue⟩, .internalError⟩
  else
    let db1 := addSpan st.db
      ⟨rootSpanId, .jStr traceId, none, "ingress", "webhook_receive", none, "OK",
        [("source", some source)]⟩
    let msg : PubMessage :=
      ⟨.jObj [("source", source), ("payload", payload), ("traceId", .jStr traceId),
          ("receivedAt", .jStr o.receivedAt)],
        [("traceId", traceId)]⟩
    let pubsubStart := o.clock 1
    if o.pubFails then
      gwCatch o db1 c1 st.queue rootSpanId rootStart 2 1
    else
      let messageId := o.pubMsgId
      let q1 := st.queue ++ [msg]
      let c2 := { c1 with totalPublished := c1.totalPublished + 1 }
      let d := o.clock 2 - pubsubStart
      if o.dbFails 1 then
        gwCatch o db1 c2 q1 rootSpanId rootStart 3 2
      else
        let db2 := addSpanAuto db1 (fun i =>
          ⟨i, .jStr traceId, some rootSpanId, "ingress", "pubsub_publish", some d, "OK",
            [("messageId", some (.jStr messageId)),
              ("topic", some (.jStr o.topicName))]⟩)
        let d2 := o.clock 3 - rootStart
        if o.dbFails 2 then
          gwCatch o db2 c2 q1 rootSpanId rootStart 4 3
        else
          match updateSpan db2 rootSpanId (fun s => { s with durationMs := some d2 }) with
          | none => gwCatch o db2 c2 q1 rootSpanId rootStart 4 3
          | some db3 => ⟨⟨db3, c2, q1⟩, .ok messageId traceId⟩

/-- The Ingress Gateway's `POST /webhook` handler. -/
def webhook (o : GOracle) (body : Option JVal) (st : GState) : GResult :=
  let rootStart := o.clock 0
  match body with
  | some b =>
    if bodyAccepted (some b) then webhookAccepted o b st rootStart
    else ⟨st, .badRequest⟩
  | none => ⟨st, .badRequest⟩

/-- A sequence of webhook requests against one gateway process. -/
def webhookSeq : List (GOracle × Option JVal) → GState → GState
  | [], st => st
  | (o, b) :: rest, st => webhookSeq rest (webhook o b st).st

/-- A span's parent (when it has one) occurs among the spans created
before it, with the same traceId. -/
def parentOkIn (seen : List TraceSpan) (s : TraceSpan) : Bool :=
  match s.parentId with
  | none => true
  | some p => seen.any (fun t => t.id == p && t.traceId == s.traceId)

/-- The causal span-tree invariant (§3 of the spec), over a span list in
creation order: every non-root span's parent was created earlier and
shares its traceId. `seen` accumulates the already-created spans. -/
def spansOk (seen : List TraceSpan) : List TraceSpan → Bool
  | [] => true
  | s :: rest => parentOkIn seen s && spansOk (seen ++ [s]) rest

/-- An oracle under which no store write issued after a successful
publish fails (store operation 0 is the pre-publish root-span insert;
operations 1 and 2 are the post-publish span writes). -/
def noPostPubFail (o : GOracle) : Prop :=
  o.pubFails = false → o.dbFails 1 = false ∧ o.dbFails 2 = false

/-- Fixture: a worker oracle with no store failures, the clock reading k
at its k-th call, and distinct uuids. -/
def oW : WOracle := ⟨fun _ => false, fun k => (k : Int), fun k => "u" ++ toString k⟩

/-- Fixture: the seeded GitHub agent. -/
def agentW : Agent := ⟨"a1", "GitHub Keeper", "github"⟩

/-- Fixture: a store holding only the GitHub agent. -/
def dbW : DB := ⟨[agentW], [], [], [], 0, 0⟩

/-- Fixture: a parsed webhook-originated message body. -/
def dataW : JVal :=
  .jObj [("source", .jStr "github"), ("payload", .jObj [("msg", .jStr "commit X")])]

/-- Fixture: the delivered queue message for `dataW`. -/
def msgW : Message := ⟨some dataW, [("traceId", "t1")], "m1"⟩

/-- Fixture: a parsed RESUME control message body carrying an agentId. -/
def dataResume : JVal :=
  .jObj [("type", .jStr "RESUME"), ("taskId", .jNum 7), ("agentId", .jStr "a1")]

/-- Fixture: the delivered queue message for `dataResume`. -/
def msgResume : Message := ⟨some dataResume, [("traceId", "t2")], "m2"⟩

/-- Fixture: a gateway oracle where nothing fails. -/
def oG0 : GOracle :=
  ⟨fun _ => false, false, fun k => (k : Int), "tid0", "rsid0", "mid0", "at0", "topic0"⟩

/-- Fixture: a gateway oracle where the queue publish fails. -/
def oGpubFail : GOracle :=
  ⟨fun _ => false, true, fun k => (k : Int), "tid0", "rsid0", "mid0", "at0", "topic0"⟩

/-- Fixture: a gateway oracle where the post-publish child-span insert
(store operation 1) throws. -/
def oGspanFail : GOracle :=
  ⟨fun k => k == 1, false, fun k => (k : Int), "tid0", "rsid0", "mid0", "at0", "topic0"⟩

/-- Fixture: a fresh gateway process state over `dbW`. -/
def stG0 : GState := ⟨dbW, ⟨0, 0, 0⟩, []⟩

/-- Fixture: an empty store. -/
def dbE : DB := ⟨[], [], [], [], 0, 0⟩

mutual

theorem JVal.beq_refl : ∀ v : JVal, JVal.beq v v = true
  | .jNull => rfl
  | .jBool b => by simp [JVal.beq]
  | .jNum n => by simp [JVal.beq]
  | .jStr s => by simp [JVal.beq]
  | .jArr xs => by simp [JVal.beq, JVal.beqList_refl xs]
  | .jObj fs => by simp [JVal.beq, JVal.beqFields_refl fs]

theorem JVal.beqList_refl : ∀ xs : List JVal, JVal.beqList xs xs = true
  | [] => rfl
  | x :: xs => by simp [JVal.beqList, JVal.beq_refl x, JVal.beqList_refl xs]

theorem JVal.beqFields_refl : ∀ xs : List (String × JVal), JVal.beqFields xs xs = true
  | [] => rfl
  | (k, v) :: xs => by
      simp [JVal.beqFields, JVal.beq_refl v, JVal.beqFields_refl xs]

end

theorem catchPath_acks (o : WOracle) (db : DB) (tid : JVal) (rsid : String)
    (rs : Int) (ci di : Nat) :
    (catchPath o db tid rsid rs ci di).acks = 1 ∧
      (catchPath o db tid rsid rs ci di).nacks = 0 := by
  simp only [catchPath]
  repeat' split
  all_goals exact ⟨rfl, rfl⟩

theorem finishRoot_acks (o : WOracle) (db : DB) (tid : JVal) (rsid : String)
    (rs : Int) (ci di : Nat) :
    (finishRoot o db tid rsid rs ci di).acks = 1 ∧
      (finishRoot o db tid rsid rs ci di).nacks = 0 := by
  simp only [finishRoot]
  repeat' split
  all_goals first
    | exact ⟨rfl, rfl⟩
    | apply catchPath_acks

theorem resumeTail_acks (o : WOracle) (data : JVal) (db : DB) (tid : JVal)
    (rsid : String) (rs : Int) (di : Nat) :
    (resumeTail o data db tid rsid rs di).acks = 1 ∧
      (resumeTail o data db tid rsid rs di).nacks = 0 := by
  simp only [resumeTail]
  repeat' split
  all_goals first
    | apply catchPath_acks
    | apply finishRoot_acks

theorem resumeBranch_acks (o : WOracle) (data : JVal) (db : DB) (tid : JVal)
    (rsid : String) (rs : Int) :
    (resumeBranch o data db tid rsid rs).acks = 1 ∧
      (resumeBranch o data db tid rsid rs).nacks = 0 := by
  simp only [resumeBranch]
  repeat' split
  all_goals first
    | apply catchPath_acks
    | apply resumeTail_acks

theorem agentBranch_acks (o : WOracle) (data source : JVal) (ag : Agent)
    (db : DB) (tid : JVal) (rsid : String) (rs : Int) :
    (agentBranch o data source ag db tid rsid rs).acks = 1 ∧
      (agentBranch o data source ag db tid rsid rs).nacks = 0 := by
  simp only [agentBranch]
  repeat' split
  all_goals first
    | apply catchPath_acks
    | apply finishRoot_acks

theorem normalBranch_acks (o : WOracle) (data : JVal) (db : DB) (tid : JVal)
    (rsid : String) (rs : Int) :
    (normalBranch o data db tid rsid rs).acks = 1 ∧
      (normalBranch o data db tid rsid rs).nacks = 0 := by
  simp only [normalBranch]
  repeat' split
  all_goals first
    | apply catchPath_acks
    | apply finishRoot_acks
    | apply agentBranch_acks

theorem handleMessage_acks (o : WOracle) (msg : Message) (db : DB) :
    (handleMessage o msg db).acks = 1 ∧ (handleMessage o msg db).nacks = 0 := by
  simp only [handleMessage]
  repeat' split
  all_goals first
    | apply catchPath_acks
    | apply resumeBranch_acks
    | apply normalBranch_acks

theorem isNull_eq_false {v : JVal} (h : v ≠ .jNull) : v.isNull = false := by
  cases v <;> simp_all [JVal.isNull]

theorem isNull_eq_false_of_resume {data : JVal}
    (h : isResumeType (data.getField "type") = true) : data.isNull = false := by
  cases data <;> simp_all [JVal.getField, isResumeType, JVal.isNull]

theorem spanExists_addSpan_self (db : DB) (s : TraceSpan) :
    spanExists (addSpan db s) s.id = true := by
  simp [spanExists, addSpan]

theorem spanExists_addSpanAuto (db : DB) (s : String → TraceSpan) (i : String)
    (h : spanExists db i = true) : spanExists (addSpanAuto db s) i = true := by
  simp_all [spanExists, addSpanAuto]

theorem spanExists_addTask (db : DB) (t : Nat → Task) (i : String) :
    spanExists (addTask db t) i = spanExists db i := rfl

theorem spanExists_addUsage (db : DB) (u : UsageLog) (i : String) :
    spanExists (addUsage db u) i = spanExists db i := rfl

theorem finishRoot_fields (o : WOracle) (db : DB) (tid : JVal) (rsid : String)
    (rs : Int) (ci di : Nat) (hnf : ∀ k, o.dbFails k = false)
    (hex : spanExists db rsid = true) :
    (finishRoot o db tid rsid rs ci di).db.agents = db.agents ∧
    (finishRoot o db tid rsid rs ci di).db.tasks = db.tasks ∧
    (finishRoot o db tid rsid rs ci di).db.usageLogs = db.usageLogs ∧
    (finishRoot o db tid rsid rs ci di).db.nextTaskId = db.nextTaskId ∧
    (finishRoot o db tid rsid rs ci di).errored = false ∧
    (finishRoot o db tid rsid rs ci di).traceId = tid := by
  simp [finishRoot, updateSpan, hnf, hex]

theorem agentBranch_fields (o : WOracle) (data source : JVal) (ag : Agent)
    (db : DB) (tid : JVal) (rsid : String) (rs : Int)
    (hnf : ∀ k, o.dbFails k = false) (hex : spanExists db rsid = true) :
    (agentBranch o data source ag db tid rsid rs).db.agents = db.agents ∧
    (agentBranch o data source ag db tid rsid rs).db.tasks =
      db.tasks ++ [⟨db.nextTaskId,
        "Signal from " ++ jsString source ++ ": " ++
          jsonStringify (jsNullish (data.getField "payload") data),
        data, ag.id⟩] ∧
    (agentBranch o data source ag db tid rsid rs).db.usageLogs =
      db.usageLogs ++ [⟨.jStr ag.id, "tool_call", 120, 0.0012,
        [("taskId", some (.jNum (db.nextTaskId : Int))), ("source", some source),
          ("traceId", some tid)]⟩] ∧
    (agentBranch o data source ag db tid rsid rs).db.nextTaskId = db.nextTaskId + 1 ∧
    (agentBranch o data source ag db tid rsid rs).errored = false ∧
    (agentBranch o data source ag db tid rsid rs).traceId = tid := by
  have hex' : db.spans.any (fun s => s.id == rsid) = true := hex
  simp [agentBranch, finishRoot, updateSpan, spanExists, addTask, addUsage,
    addSpanAuto, hnf, List.any_append, hex']

theorem normalBranch_matched (o : WOracle) (data : JVal) (db : DB) (tid : JVal)
    (rsid : String) (rs : Int) (ag : Agent)
    (hnf : ∀ k, o.dbFails k = false) (hex : spanExists db rsid = true)
    (hfind : db.agents.find?
        (fun a => jvalEqStr (jsOr (data.getField "source") (.jStr "unknown")) a.role)
      = some ag) :
    (normalBranch o data db tid rsid rs).db.agents = db.agents ∧
    (normalBranch o data db tid rsid rs).db.tasks =
      db.tasks ++ [⟨db.nextTaskId,
        "Signal from " ++ jsString (jsOr (data.getField "source") (.jStr "unknown")) ++
          ": " ++ jsonStringify (jsNullish (data.getField "payload") data),
        data, ag.id⟩] ∧
    (normalBranch o data db tid rsid rs).db.usageLogs =
      db.usageLogs ++ [⟨.jStr ag.id, "tool_call", 120, 0.0012,
        [("taskId", some (.jNum (db.nextTaskId : Int))),
          ("source", some (jsOr (data.getField "source") (.jStr "unknown"))),
          ("traceId", some tid)]⟩] ∧
    (normalBranch o data db tid rsid rs).db.nextTaskId = db.nextTaskId + 1 ∧
    (normalBranch o data db tid rsid rs).errored = false ∧
    (normalBranch o data db tid rsid rs).traceId = tid := by
  have hex' : db.spans.any (fun s => s.id == rsid) = true := hex
  simp [normalBranch, agentBranch, finishRoot, updateSpan, spanExists, addTask,
    addUsage, addSpanAuto, hnf, List.any_append, hex', hfind]

theorem normalBranch_nomatch (o : WOracle) (data : JVal) (db : DB) (tid : JVal)
    (rsid : String) (rs : Int)
    (hnf : ∀ k, o.dbFails k = false) (hex : spanExists db rsid = true)
    (hfind : db.agents.find?
        (fun a => jvalEqStr (jsOr (data.getField "source") (.jStr "unknown")) a.role)
      = none) :
    (normalBranch o data db tid rsid rs).db.agents = db.agents ∧
    (normalBranch o data db tid rsid rs).db.tasks = db.tasks ∧
    (normalBranch o data db tid rsid rs).db.usageLogs = db.usageLogs ∧
    (normalBranch o data db tid rsid rs).db.nextTaskId = db.nextTaskId ∧
    (normalBranch o data db tid rsid rs).errored = false ∧
    (normalBranch o data db tid rsid rs).traceId = tid := by
  have hex' : db.spans.any (fun s => s.id == rsid) = true := hex
  simp [normalBranch, finishRoot, updateSpan, spanExists, addSpanAuto, hnf,
    List.any_append, hex', hfind]

theorem handleMessage_matched (o : WOracle) (msg : Message) (db : DB)
    (data : JVal) (ag : Agent)
    (hd : msg.data = some data) (hnn : data ≠ .jNull)
    (hnr : isResumeType (data.getField "type") = false)
    (hnf : ∀ k, o.dbFails k = false)
    (hfind : db.agents.find?
        (fun a => jvalEqStr (jsOr (data.getField "source") (.jStr "unknown")) a.role)
      = some ag) :
    (handleMessage o msg db).db.agents = db.agents ∧
    (handleMessage o msg db).db.tasks =
      db.tasks ++ [⟨db.nextTaskId,
        "Signal from " ++ jsString (jsOr (data.getField "source") (.jStr "unknown")) ++
          ": " ++ jsonStringify (jsNullish (data.getField "payload") data),
        data, ag.id⟩] ∧
    (handleMessage o msg db).db.usageLogs =
      db.usageLogs ++ [⟨.jStr ag.id, "tool_call", 120, 0.0012,
        [("taskId", some (.jNum (db.nextTaskId : Int))),
          ("source", some (jsOr (data.getField "source") (.jStr "unknown"))),
          ("traceId", some (resolveTid o (msg.attributes.lookup "traceId") data))]⟩] ∧
    (handleMessage o msg db).db.nextTaskId = db.nextTaskId + 1 ∧
    (handleMessage o msg db).errored = false ∧
    (handleMessage o msg db).traceId =
      resolveTid o (msg.attributes.lookup "traceId") data := by
  have hnull := isNull_eq_false hnn
  obtain ⟨h1, h2, h3, h4, h5, h6⟩ := normalBranch_matched o data
    (addSpan db ⟨o.uuid 0, resolveTid o (msg.attributes.lookup "traceId") data,
      none, "orchestrator", "process_message", none, "OK",
      [("messageId", some (.jStr msg.id))]⟩)
    (resolveTid o (msg.attributes.lookup "traceId") data) (o.uuid 0) (o.clock 0)
    ag hnf (by simp [spanExists, addSpan]) hfind
  simp only [handleMessage, hd, hnull, hnr, hnf, Bool.and_false, Bool.false_eq_true,
    if_false, Bool.not_eq_true', ite_false]
  simp only [addSpan] at h1 h2 h3 h4 h5 h6
  simp [h1, h2, h3, h4, h5, h6, addSpan]

theorem handleMessage_nomatch (o : WOracle) (msg : Message) (db : DB)
    (data : JVal)
    (hd : msg.data = some data) (hnn : data ≠ .jNull)
    (hnr : isResumeType (data.getField "type") = false)
    (hnf : ∀ k, o.dbFails k = false)
    (hfind : db.agents.find?
        (fun a => jvalEqStr (jsOr (data.getField "source") (.jStr "unknown")) a.role)
      = none) :
    (handleMessage o msg db).db.agents = db.agents ∧
    (handleMessage o msg db).db.tasks = db.tasks ∧
    (handleMessage o msg db).db.usageLogs = db.usageLogs ∧
    (handleMessage o msg db).db.nextTaskId = db.nextTaskId ∧
    (handleMessage o msg db).errored = false ∧
    (handleMessage o msg db).traceId =
      resolveTid o (msg.attributes.lookup "traceId") data := by
  have hnull := isNull_eq_false hnn
  obtain ⟨h1, h2, h3, h4, h5, h6⟩ := normalBranch_nomatch o data
    (addSpan db ⟨o.uuid 0, resolveTid o (msg.attributes.lookup "traceId") data,
      none, "orchestrator", "process_message", none, "OK",
      [("messageId", some (.jStr msg.id))]⟩)
    (resolveTid o (msg.attributes.lookup "traceId") data) (o.uuid 0) (o.clock 0)
    hnf (by simp [spanExists, addSpan]) hfind
  simp only [handleMessage, hd, hnull, hnr, hnf, Bool.and_false, Bool.false_eq_true,
    if_false, Bool.not_eq_true', ite_false]
  simp only [addSpan] at h1 h2 h3 h4 h5 h6
  simp [h1, h2, h3, h4, h5, h6, addSpan]

theorem handleMessage_resume_usage (o : WOracle) (msg : Message) (db : DB)
    (data av : JVal)
    (hd : msg.data = some data)
    (hr : isResumeType (data.getField "type") = true)
    (hag : data.getField "agentId" = some av) (hav : truthy av = true)
    (hnf : ∀ k, o.dbFails k = false) :
    (handleMessage o msg db).db.agents = db.agents ∧
    (handleMessage o msg db).db.tasks = db.tasks ∧
    (handleMessage o msg db).db.usageLogs = db.usageLogs ++
      [⟨av, "resume", 50, 0.0005,
        [("taskId", data.getField "taskId"),
          ("traceId", some (resolveTid o (msg.attributes.lookup "traceId") data))]⟩] ∧
    (handleMessage o msg db).db.nextTaskId = db.nextTaskId ∧
    (handleMessage o msg db).errored = false ∧
    (handleMessage o msg db).traceId =
      resolveTid o (msg.attributes.lookup "traceId") data := by
  have hnull := isNull_eq_false_of_resume hr
  simp [handleMessage, resumeBranch, resumeTail, finishRoot, updateSpan, spanExists,
    addSpan, addUsage, addSpanAuto, hd, hnull, hr, hag, hav, hnf, List.any_append]

theorem handleMessage_resume_noUsage (o : WOracle) (msg : Message) (db : DB)
    (data : JVal)
    (hd : msg.data = some data)
    (hr : isResumeType (data.getField "type") = true)
    (hag : optTruthy (data.getField "agentId") = false)
    (hnf : ∀ k, o.dbFails k = false) :
    (handleMessage o msg db).db.agents = db.agents ∧
    (handleMessage o msg db).db.tasks = db.tasks ∧
    (handleMessage o msg db).db.usageLogs = db.usageLogs ∧
    (handleMessage o msg db).db.nextTaskId = db.nextTaskId ∧
    (handleMessage o msg db).errored = false := by
  have hnull := isNull_eq_false_of_resume hr
  cases h : data.getField "agentId" with
  | none =>
    simp [handleMessage, resumeBranch, resumeTail, finishRoot, updateSpan,
      spanExists, addSpan, addSpanAuto, hd, hnull, hr, h, hnf, List.any_append]
  | some av =>
    have hav : truthy av = false := by
      rw [h] at hag
      simpa [optTruthy] using hag
    simp [handleMessage, resumeBranch, resumeTail, finishRoot, updateSpan,
      spanExists, addSpan, addSpanAuto, hd, hnull, hr, h, hav, hnf, List.any_append]

/-- Claim C1: for every delivered queue message whose body parses as JSON (to
a non-null value) and whose payload.type is not "RESUME", when the handler
runs to completion (no store operation fails) it creates exactly one Task row
and exactly one UsageLog row (action "tool_call", tokens 120, costUsd 0.0012,
linked to the matched agent's id) if and only if an Agent exists whose role
equals the message's resolved source; when no agent matches, no Task and no
UsageLog row is created; in both cases the message is acknowledged. -/
theorem c1_task_and_usage_iff_agent (o : WOracle) (msg : Message) (db : DB)
    (data : JVal)
    (hd : msg.data = some data) (hnn : data ≠ .jNull)
    (hnr : isResumeType (data.getField "type") = false)
    (hnf : ∀ k, o.dbFails k = false) :
    ((handleMessage o msg db).acks = 1 ∧ (handleMessage o msg db).nacks = 0 ∧
      (handleMessage o msg db).errored = false) ∧
    (∀ ag, db.agents.find?
        (fun a => jvalEqStr (jsOr (data.getField "source") (.jStr "unknown")) a.role)
        = some ag →
      (handleMessage o msg db).db.tasks = db.tasks ++ [⟨db.nextTaskId,
        "Signal from " ++ jsString (jsOr (data.getField "source") (.jStr "unknown")) ++
          ": " ++ jsonStringify (jsNullish (data.getField "payload") data),
        data, ag.id⟩] ∧
      (handleMessage o msg db).db.usageLogs = db.usageLogs ++
        [⟨.jStr ag.id, "tool_call", 120, 0.0012,
          [("taskId", some (.jNum (db.nextTaskId : Int))),
            ("source", some (jsOr (data.getField "source") (.jStr "unknown"))),
            ("traceId", some (handleMessage o msg db).traceId)]⟩]) ∧
    (db.agents.find?
        (fun a => jvalEqStr (jsOr (data.getField "source") (.jStr "unknown")) a.role)
        = none →
      (handleMessage o msg db).db.tasks = db.tasks ∧
      (handleMessage o msg db).db.usageLogs = db.usageLogs) ∧
    ((∃ a ∈ db.agents,
        jvalEqStr (jsOr (data.getField "source") (.jStr "unknown")) a.role = true) ↔
      (db.agents.find?
        (fun a => jvalEqStr (jsOr (data.getField "source") (.jStr "unknown")) a.role)).isSome) := by
  refine ⟨?_, ?_, ?_, ?_⟩
  · obtain ⟨ha, hn⟩ := handleMessage_acks o msg db
    cases hfind : db.agents.find?
        (fun a => jvalEqStr (jsOr (data.getField "source") (.jStr "unknown")) a.role) with
    | some ag =>
      exact ⟨ha, hn,
        (handleMessage_matched o msg db data ag hd hnn hnr hnf hfind).2.2.2.2.1⟩
    | none =>
      exact ⟨ha, hn,
        (handleMessage_nomatch o msg db data hd hnn hnr hnf hfind).2.2.2.2.1⟩
  · intro ag hfind
    obtain ⟨-, h2, h3, -, -, h6⟩ :=
      handleMessage_matched o msg db data ag hd hnn hnr hnf hfind
    refine ⟨h2, ?_⟩
    rw [h6]
    exact h3
  · intro hfind
    obtain ⟨-, h2, h3, -, -, -⟩ :=
      handleMessage_nomatch o msg db data hd hnn hnr hnf hfind
    exact ⟨h2, h3⟩
  · exact Iff.symm List.find?_isSome

/-- Witness for C1 at a concrete matched message: the Task and UsageLog rows
created for `msgW` against `dbW`. -/
theorem c1_witness :
    (handleMessage oW msgW dbW).db.tasks = dbW.tasks ++ [⟨dbW.nextTaskId,
      "Signal from " ++ jsString (jsOr (dataW.getField "source") (.jStr "unknown")) ++
        ": " ++ jsonStringify (jsNullish (dataW.getField "payload") dataW),
      dataW, agentW.id⟩] ∧
    (handleMessage oW msgW dbW).db.usageLogs = dbW.usageLogs ++
      [⟨.jStr agentW.id, "tool_call", 120, 0.0012,
        [("taskId", some (.jNum (dbW.nextTaskId : Int))),
          ("source", some (jsOr (dataW.getField "source") (.jStr "unknown"))),
          ("traceId", some (handleMessage oW msgW dbW).traceId)]⟩] :=
  (c1_task_and_usage_iff_agent oW msgW dbW dataW rfl (fun h => JVal.noConfusion h)
    rfl (fun _ => rfl)).2.1 agentW rfl

/-- Claim C2: for every delivered message whose payload.type is "RESUME", when
the handler runs to completion: if it carries a (truthy) agentId the worker
creates exactly one UsageLog row with action "resume", tokens 50, costUsd
0.0005 and metadata containing the taskId and traceId, and creates or mutates
no Task row; a RESUME message without (truthy) agentId creates no UsageLog
row at all. -/
theorem c2_resume_usage (o : WOracle) (msg : Message) (db : DB) (data : JVal)
    (hd : msg.data = some data)
    (hr : isResumeType (data.getField "type") = true)
    (hnf : ∀ k, o.dbFails k = false) :
    (∀ av, data.getField "agentId" = some av → truthy av = true →
      (handleMessage o msg db).db.usageLogs = db.usageLogs ++
        [⟨av, "resume", 50, 0.0005,
          [("taskId", data.getField "taskId"),
            ("traceId", some (handleMessage o msg db).traceId)]⟩] ∧
      (handleMessage o msg db).db.tasks = db.tasks) ∧
    (optTruthy (data.getField "agentId") = false →
      (handleMessage o msg db).db.usageLogs = db.usageLogs ∧
      (handleMessage o msg db).db.tasks = db.tasks) := by
  constructor
  · intro av hag hav
    obtain ⟨-, h2, h3, -, -, h6⟩ :=
      handleMessage_resume_usage o msg db data av hd hr hag hav hnf
    refine ⟨?_, h2⟩
    rw [h6]
    exact h3
  · intro hag
    obtain ⟨-, h2, h3, -, -⟩ :=
      handleMessage_resume_noUsage o msg db data hd hr hag hnf
    exact ⟨h3, h2⟩

/-- Witness for C2 at a concrete RESUME message carrying an agentId. -/
theorem c2_witness :
    (handleMessage oW msgResume dbW).db.usageLogs = dbW.usageLogs ++
      [⟨.jStr "a1", "resume", 50, 0.0005,
        [("taskId", dataResume.getField "taskId"),
          ("traceId", some (handleMessage oW msgResume dbW).traceId)]⟩] ∧
    (handleMessage oW msgResume dbW).db.tasks = dbW.tasks :=
  (c2_resume_usage oW msgResume dbW dataResume rfl rfl (fun _ => rfl)).1
    (.jStr "a1") rfl rfl

/-- Claim C3: for every delivered message — parse failure, missing agent or
any store failure included — the worker's handler calls ack exactly once and
never calls nack. -/
theorem c3_always_ack_never_nack (o : WOracle) (msg : Message) (db : DB) :
    (handleMessage o msg db).acks = 1 ∧ (handleMessage o msg db).nacks = 0 :=
  handleMessage_acks o msg db

/-- Claim C6: delivering the same message twice, when an agent matches its
source and both runs complete, produces two distinct Task rows and two
UsageLog rows — repeated processing is not idempotent. -/
theorem c6_duplicate_delivery_two_tasks (o1 o2 : WOracle) (msg : Message)
    (db : DB) (data : JVal) (ag : Agent)
    (hd : msg.data = some data) (hnn : data ≠ .jNull)
    (hnr : isResumeType (data.getField "type") = false)
    (hnf1 : ∀ k, o1.dbFails k = false) (hnf2 : ∀ k, o2.dbFails k = false)
    (hfind : db.agents.find?
        (fun a => jvalEqStr (jsOr (data.getField "source") (.jStr "unknown")) a.role)
      = some ag) :
    (handleMessage o2 msg (handleMessage o1 msg db).db).db.tasks =
      db.tasks ++ [⟨db.nextTaskId,
        "Signal from " ++ jsString (jsOr (data.getField "source") (.jStr "unknown")) ++
          ": " ++ jsonStringify (jsNullish (data.getField "payload") data),
        data, ag.id⟩,
        ⟨db.nextTaskId + 1,
        "Signal from " ++ jsString (jsOr (data.getField "source") (.jStr "unknown")) ++
          ": " ++ jsonStringify (jsNullish (data.getField "payload") data),
        data, ag.id⟩] ∧
    db.nextTaskId ≠ db.nextTaskId + 1 ∧
    (handleMessage o2 msg (handleMessage o1 msg db).db).db.usageLogs.length =
      db.usageLogs.length + 2 := by
  obtain ⟨g1, g2, g3, g4, -, -⟩ :=
    handleMessage_matched o1 msg db data ag hd hnn hnr hnf1 hfind
  have hfind2 : (handleMessage o1 msg db).db.agents.find?
      (fun a => jvalEqStr (jsOr (data.getField "source") (.jStr "unknown")) a.role)
      = some ag := by
    rw [g1]
    exact hfind
  obtain ⟨-, k2, k3, -, -, -⟩ :=
    handleMessage_matched o2 msg (handleMessage o1 msg db).db data ag hd hnn hnr
      hnf2 hfind2
  refine ⟨?_, by omega, ?_⟩
  · rw [k2, g2, g4]
    simp
  · rw [k3, g3]
    simp

theorem gwCatch_response (o : GOracle) (db : DB) (c : Counters)
    (q : List PubMessage) (rsid : String) (rs : Int) (ci di : Nat) :
    (gwCatch o db c q rsid rs ci di).response = .pubError := by
  simp only [gwCatch]
  repeat' split
  all_goals rfl

theorem gwCatch_counters (o : GOracle) (db : DB) (c : Counters)
    (q : List PubMessage) (rsid : String) (rs : Int) (ci di : Nat) :
    (gwCatch o db c q rsid rs ci di).st.counters =
      { c with totalFailed := c.totalFailed + 1 } := by
  simp only [gwCatch]
  repeat' split
  all_goals rfl

theorem gwCatch_queue (o : GOracle) (db : DB) (c : Counters)
    (q : List PubMessage) (rsid : String) (rs : Int) (ci di : Nat) :
    (gwCatch o db c q rsid rs ci di).st.queue = q := by
  simp only [gwCatch]
  repeat' split
  all_goals rfl

theorem webhookAccepted_response_received (o : GOracle) (b : JVal) (st : GState)
    (rs : Int) :
    (webhookAccepted o b st rs).response ≠ .badRequest ∧
    (webhookAccepted o b st rs).st.counters.totalReceived =
      st.counters.totalReceived + 1 := by
  simp only [webhookAccepted]
  repeat' split
  all_goals first
    | exact ⟨fun h => GResponse.noConfusion h, rfl⟩
    | exact ⟨fun h => by rw [gwCatch_response] at h; exact GResponse.noConfusion h,
        by rw [gwCatch_counters]⟩

/-- Witness for C6 at the concrete duplicated message `msgW`. -/
theorem c6_witness :
    (handleMessage oW msgW (handleMessage oW msgW dbW).db).db.tasks =
      dbW.tasks ++ [⟨dbW.nextTaskId,
        "Signal from " ++ jsString (jsOr (dataW.getField "source") (.jStr "unknown")) ++
          ": " ++ jsonStringify (jsNullish (dataW.getField "payload") dataW),
        dataW, agentW.id⟩,
        ⟨dbW.nextTaskId + 1,
        "Signal from " ++ jsString (jsOr (dataW.getField "source") (.jStr "unknown")) ++
          ": " ++ jsonStringify (jsNullish (dataW.getField "payload") dataW),
        dataW, agentW.id⟩] ∧
    dbW.nextTaskId ≠ dbW.nextTaskId + 1 ∧
    (handleMessage oW msgW (handleMessage oW msgW dbW).db).db.usageLogs.length =
      dbW.usageLogs.length + 2 :=
  c6_duplicate_delivery_two_tasks oW oW msgW dbW dataW agentW rfl
    (fun h => JVal.noConfusion h) rfl (fun _ => rfl) (fun _ => rfl) rfl

theorem updateSpan_some_spans {db : DB} {i : String} {f : TraceSpan → TraceSpan}
    {db' : DB} (h : updateSpan db i f = some db') :
    db'.spans = db.spans.map (fun s => if s.id == i then f s else s) ∧
    db'.agents = db.agents ∧ db'.tasks = db.tasks ∧
    db'.usageLogs = db.usageLogs ∧ db'.nextTaskId = db.nextTaskId := by
  unfold updateSpan at h
  split at h
  · cases h
    exact ⟨rfl, rfl, rfl, rfl, rfl⟩
  · exact Option.noConfusion h

theorem spansTid_update (f : TraceSpan → TraceSpan)
    (hf : ∀ s, (f s).traceId = s.traceId) (i : String) {l : List TraceSpan}
    {tid : JVal} (h : ∀ s ∈ l, s.traceId = tid) :
    ∀ s ∈ l.map (fun s => if s.id == i then f s else s), s.traceId = tid := by
  intro s hs
  rw [List.mem_map] at hs
  obtain ⟨u, hu, rfl⟩ := hs
  by_cases hc : (u.id == i) = true
  · rw [if_pos hc, hf]
    exact h u hu
  · rw [if_neg hc]
    exact h u hu

theorem spansTid_snoc {l : List TraceSpan} {tid : JVal}
    (h : ∀ s ∈ l, s.traceId = tid) (s0 : TraceSpan) (h0 : s0.traceId = tid) :
    ∀ s ∈ l ++ [s0], s.traceId = tid := by
  intro s hs
  rcases List.mem_append.1 hs with h' | h'
  · exact h s h'
  · rw [List.mem_singleton] at h'
    subst h'
    exact h0

theorem catchPath_tid (o : WOracle) (db : DB) (tid : JVal) (rsid : String)
    (rs : Int) (ci di : Nat) (hall : ∀ s ∈ db.spans, s.traceId = tid) :
    (catchPath o db tid rsid rs ci di).traceId = tid ∧
    ∀ s ∈ (catchPath o db tid rsid rs ci di).db.spans, s.traceId = tid := by
  have hup : ∀ {f : TraceSpan → TraceSpan} {db' : DB},
      updateSpan db rsid f = some db' → (∀ s, (f s).traceId = s.traceId) →
      ∀ s ∈ db'.spans, s.traceId = tid := by
    intro f db' h hf s hs
    obtain ⟨hsp, -, -, -, -⟩ := updateSpan_some_spans h
    exact spansTid_update f hf rsid hall s (hsp ▸ hs)
  simp only [catchPath]
  repeat' split
  all_goals refine ⟨rfl, ?_⟩
  all_goals first
    | exact hall
    | (intro s hs; rename_i heq; exact hup heq (fun _ => rfl) s hs)

theorem finishRoot_tid (o : WOracle) (db : DB) (tid : JVal) (rsid : String)
    (rs : Int) (ci di : Nat) (hall : ∀ s ∈ db.spans, s.traceId = tid) :
    (finishRoot o db tid rsid rs ci di).traceId = tid ∧
    ∀ s ∈ (finishRoot o db tid rsid rs ci di).db.spans, s.traceId = tid := by
  have hup : ∀ {f : TraceSpan → TraceSpan} {db' : DB},
      updateSpan db rsid f = some db' → (∀ s, (f s).traceId = s.traceId) →
      ∀ s ∈ db'.spans, s.traceId = tid := by
    intro f db' h hf s hs
    obtain ⟨hsp, -, -, -, -⟩ := updateSpan_some_spans h
    exact spansTid_update f hf rsid hall s (hsp ▸ hs)
  simp only [finishRoot]
  repeat' split
  all_goals first
    | (apply catchPath_tid; exact hall)
    | (refine ⟨rfl, ?_⟩
       intro s hs
       rename_i heq
       exact hup heq (fun _ => rfl) s hs)

theorem resumeTail_tid (o : WOracle) (data : JVal) (db : DB) (tid : JVal)
    (rsid : String) (rs : Int) (di : Nat)
    (hall : ∀ s ∈ db.spans, s.traceId = tid) :
    (resumeTail o data db tid rsid rs di).traceId = tid ∧
    ∀ s ∈ (resumeTail o data db tid rsid rs di).db.spans, s.traceId = tid := by
  simp only [resumeTail, addSpanAuto]
  repeat' split
  all_goals first
    | (apply catchPath_tid; exact hall)
    | (apply finishRoot_tid; exact spansTid_snoc hall _ rfl)

theorem resumeBranch_tid (o : WOracle) (data : JVal) (db : DB) (tid : JVal)
    (rsid : String) (rs : Int) (hall : ∀ s ∈ db.spans, s.traceId = tid) :
    (resumeBranch o data db tid rsid rs).traceId = tid ∧
    ∀ s ∈ (resumeBranch o data db tid rsid rs).db.spans, s.traceId = tid := by
  simp only [resumeBranch, addUsage]
  repeat' split
  all_goals first
    | (apply catchPath_tid; exact hall)
    | (apply resumeTail_tid; exact hall)

theorem agentBranch_tid (o : WOracle) (data source : JVal) (ag : Agent)
    (db : DB) (tid : JVal) (rsid : String) (rs : Int)
    (hall : ∀ s ∈ db.spans, s.traceId = tid) :
    (agentBranch o data source ag db tid rsid rs).traceId = tid ∧
    ∀ s ∈ (agentBranch o data source ag db tid rsid rs).db.spans,
      s.traceId = tid := by
  simp only [agentBranch, addTask, addUsage, addSpanAuto]
  repeat' split
  all_goals first
    | (apply catchPath_tid; first
        | exact hall
        | exact spansTid_snoc hall _ rfl)
    | (apply finishRoot_tid; exact spansTid_snoc hall _ rfl)

theorem normalBranch_tid (o : WOracle) (data : JVal) (db : DB) (tid : JVal)
    (rsid : String) (rs : Int) (hall : ∀ s ∈ db.spans, s.traceId = tid) :
    (normalBranch o data db tid rsid rs).traceId = tid ∧
    ∀ s ∈ (normalBranch o data db tid rsid rs).db.spans, s.traceId = tid := by
  simp only [normalBranch, addSpanAuto]
  repeat' split
  all_goals first
    | (apply catchPath_tid; exact hall)
    | (apply finishRoot_tid; exact spansTid_snoc hall _ rfl)
    | (apply agentBranch_tid; exact spansTid_snoc hall _ rfl)

theorem handleMessage_tid (o : WOracle) (msg : Message) (db : DB) (data : JVal)
    (t : String) (hd : msg.data = some data)
    (hattr : msg.attributes.lookup "traceId" = some t) (ht : t ≠ "")
    (hall : ∀ s ∈ db.spans, s.traceId = .jStr t) :
    (handleMessage o msg db).traceId = .jStr t ∧
    ∀ s ∈ (handleMessage o msg db).db.spans, s.traceId = .jStr t := by
  have hst : strTruthy (msg.attributes.lookup "traceId") = true := by
    rw [hattr]
    simp [strTruthy, ht]
  have hres : resolveTid o (msg.attributes.lookup "traceId") data = .jStr t := by
    unfold resolveTid
    rw [hattr]
    simp [strTruthy, ht]
  simp only [handleMessage, hd, hst, Bool.not_true, Bool.false_and,
    Bool.false_eq_true, if_false, hres, addSpan]
  repeat' split
  all_goals first
    | (apply catchPath_tid; first
        | exact hall
        | exact spansTid_snoc hall _ rfl)
    | (apply resumeBranch_tid; exact spansTid_snoc hall _ rfl)
    | (apply normalBranch_tid; exact spansTid_snoc hall _ rfl)

theorem webhook_ok_queue (o : GOracle) (body : Option JVal) (st : GState)
    (mid t : String)
    (hok : (webhook o body st).response = .ok mid t) :
    t = o.uuidTrace ∧ mid = o.pubMsgId ∧
    ∃ b, body = some b ∧
      (webhook o body st).st.queue = st.queue ++
        [⟨.jObj [("source", jsOr (b.getField "source") (.jStr "unknown")),
            ("payload", jsOr (b.getField "payload") b),
            ("traceId", .jStr o.uuidTrace), ("receivedAt", .jStr o.receivedAt)],
          [("traceId", o.uuidTrace)]⟩] := by
  cases body with
  | none => simp [webhook] at hok
  | some b =>
    by_cases hb : bodyAccepted (some b) = true
    · by_cases h0 : o.dbFails 0 = true
      · simp [webhook, hb, webhookAccepted, h0] at hok
      · by_cases hp : o.pubFails = true
        · simp [webhook, hb, webhookAccepted, h0, hp, gwCatch_response] at hok
        · by_cases h1 : o.dbFails 1 = true
          · simp [webhook, hb, webhookAccepted, h0, hp, h1, gwCatch_response] at hok
          · by_cases h2 : o.dbFails 2 = true
            · simp [webhook, hb, webhookAccepted, h0, hp, h1, h2,
                gwCatch_response] at hok
            · simp only [webhook, hb, if_true, webhookAccepted, h0, hp, h1, h2,
                Bool.false_eq_true, if_false, updateSpan, spanExists, addSpan,
                addSpanAuto, List.any_append] at hok ⊢
              simp at hok ⊢
              exact ⟨hok.2.symm, hok.1.symm⟩
    · simp [webhook, hb] at hok

/-- Claim C4: a successful POST /webhook returns 200 with a traceId equal to
both the traceId attribute and the traceId payload field of the message it
published, and the worker's traceId resolution (attribute first, then payload
field, else a fresh id) assigns that same traceId to every span it records
when processing that delivered message. -/
theorem c4_trace_propagation (o : GOracle) (body : Option JVal) (st : GState)
    (mid t : String) (o' : WOracle) (db' : DB) (did : String)
    (hok : (webhook o body st).response = .ok mid t)
    (ht : o.uuidTrace ≠ "") (hsp : db'.spans = []) :
    t = o.uuidTrace ∧
    ∃ m, (webhook o body st).st.queue = st.queue ++ [m] ∧
      m.attributes.lookup "traceId" = some t ∧
      m.data.getField "traceId" = some (.jStr t) ∧
      (handleMessage o' ⟨some m.data, m.attributes, did⟩ db').traceId = .jStr t ∧
      ∀ s ∈ (handleMessage o' ⟨some m.data, m.attributes, did⟩ db').db.spans,
        s.traceId = .jStr t := by
  obtain ⟨ht1, -, b, -, hq⟩ := webhook_ok_queue o body st mid t hok
  subst ht1
  have hall : ∀ s ∈ db'.spans, s.traceId = JVal.jStr o.uuidTrace := by
    rw [hsp]
    intro s hs
    simp at hs
  have hw := handleMessage_tid o'
    ⟨some (.jObj [("source", jsOr (b.getField "source") (.jStr "unknown")),
        ("payload", jsOr (b.getField "payload") b),
        ("traceId", .jStr o.uuidTrace), ("receivedAt", .jStr o.receivedAt)]),
      [("traceId", o.uuidTrace)], did⟩
    db'
    (.jObj [("source", jsOr (b.getField "source") (.jStr "unknown")),
        ("payload", jsOr (b.getField "payload") b),
        ("traceId", .jStr o.uuidTrace), ("receivedAt", .jStr o.receivedAt)])
    o.uuidTrace rfl rfl ht hall
  exact ⟨rfl, ⟨.jObj [("source", jsOr (b.getField "source") (.jStr "unknown")),
      ("payload", jsOr (b.getField "payload") b),
      ("traceId", .jStr o.uuidTrace), ("receivedAt", .jStr o.receivedAt)],
    [("traceId", o.uuidTrace)]⟩, hq, rfl, rfl, hw.1, hw.2⟩

/-- Witness for C4 at a concrete accepted body, delivered to a worker with an
empty span table. -/
theorem c4_witness :
    "tid0" = oG0.uuidTrace ∧
    ∃ m, (webhook oG0 (some (.jObj [])) stG0).st.queue = stG0.queue ++ [m] ∧
      m.attributes.lookup "traceId" = some "tid0" ∧
      m.data.getField "traceId" = some (.jStr "tid0") ∧
      (handleMessage oW ⟨some m.data, m.attributes, "d1"⟩ dbE).traceId =
        .jStr "tid0" ∧
      ∀ s ∈ (handleMessage oW ⟨some m.data, m.attributes, "d1"⟩ dbE).db.spans,
        s.traceId = .jStr "tid0" :=
  c4_trace_propagation oG0 (some (.jObj [])) stG0 "mid0" "tid0" oW dbE "d1" rfl
    (by decide) rfl

theorem updateSpan_none {db : DB} {i : String} {f : TraceSpan → TraceSpan}
    (h : updateSpan db i f = none) : spanExists db i = false := by
  unfold updateSpan at h
  split at h
  · exact Option.noConfusion h
  · rename_i hcond
    simpa using hcond

theorem spanExists_false_no_id {db : DB} {i : String}
    (h : spanExists db i = false) : ∀ s ∈ db.spans, s.id ≠ i := by
  intro s hs heq
  unfold spanExists at h
  rw [List.any_eq_false] at h
  have hfalse := h s hs
  rw [heq] at hfalse
  simp at hfalse

theorem errorUpdate_spans {db db' : DB} {i : String} {d0 : Int}
    (hup : updateSpan db i
      (fun s => { s with status := "ERROR", durationMs := some d0 }) = some db') :
    ∀ s ∈ db'.spans, s.id = i → s.status = "ERROR" ∧ s.durationMs = some d0 := by
  intro s hs hid
  obtain ⟨hsp, -, -, -, -⟩ := updateSpan_some_spans hup
  rw [hsp] at hs
  rw [List.mem_map] at hs
  obtain ⟨u, hu, rfl⟩ := hs
  by_cases hc : (u.id == i) = true
  · rw [if_pos hc]
    exact ⟨rfl, rfl⟩
  · rw [if_neg hc] at hid ⊢
    exact absurd (by simp [hid]) hc

/-- Claim C7: every root span closed on an error path — the worker's catch
handler (invoked with a truthy resolved traceId and the run's start time)
and the gateway's catch branch around publish — is updated with status
"ERROR" and durationMs ≥ 0 (monotone clock), and a failure of that very
update is swallowed: the worker still acks exactly once and the gateway
still replies 500 and counts the failure. -/
theorem c7_error_spans
    (o : WOracle) (db : DB) (tid : JVal) (rsid : String) (ci di : Nat)
    (hmono : ∀ i j : Nat, i ≤ j → o.clock i ≤ o.clock j)
    (htr : truthy tid = true)
    (og : GOracle) (dbg : DB) (c : Counters) (q : List PubMessage)
    (rsidg : String) (cig dig : Nat)
    (hmonog : ∀ i j : Nat, i ≤ j → og.clock i ≤ og.clock j) :
    ((catchPath o db tid rsid (o.clock 0) ci di).acks = 1 ∧
      (catchPath o db tid rsid (o.clock 0) ci di).nacks = 0) ∧
    (o.dbFails di = false →
      ∀ s ∈ (catchPath o db tid rsid (o.clock 0) ci di).db.spans, s.id = rsid →
        s.status = "ERROR" ∧ ∃ d, s.durationMs = some d ∧ 0 ≤ d) ∧
    ((gwCatch og dbg c q rsidg (og.clock 0) cig dig).response = .pubError ∧
      (gwCatch og dbg c q rsidg (og.clock 0) cig dig).st.counters.totalFailed =
        c.totalFailed + 1) ∧
    (og.dbFails dig = false →
      ∀ s ∈ (gwCatch og dbg c q rsidg (og.clock 0) cig dig).st.db.spans,
        s.id = rsidg →
        s.status = "ERROR" ∧ ∃ d, s.durationMs = some d ∧ 0 ≤ d) := by
  refine ⟨catchPath_acks o db tid rsid (o.clock 0) ci di, ?_, ?_, ?_⟩
  · intro hdf s hs hid
    revert hs
    simp only [catchPath, htr, if_true, hdf, Bool.false_eq_true, if_false]
    cases hup : updateSpan db rsid
        (fun s => { s with
          status := "ERROR"
          durationMs := some (o.clock ci - o.clock 0) }) with
    | none =>
      intro hs
      exact absurd hid (spanExists_false_no_id (updateSpan_none hup) s hs)
    | some db' =>
      intro hs
      obtain ⟨h1, h2⟩ := errorUpdate_spans hup s hs hid
      refine ⟨h1, o.clock ci - o.clock 0, h2, ?_⟩
      have := hmono 0 ci (Nat.zero_le ci)
      omega
  · constructor
    · exact gwCatch_response og dbg c q rsidg (og.clock 0) cig dig
    · rw [gwCatch_counters]
  · intro hdf s hs hid
    revert hs
    simp only [gwCatch, hdf, Bool.false_eq_true, if_false]
    cases hup : updateSpan dbg rsidg
        (fun s => { s with
          status := "ERROR"
          durationMs := some (og.clock cig - og.clock 0) }) with
    | none =>
      intro hs
      exact absurd hid (spanExists_false_no_id (updateSpan_none hup) s hs)
    | some db' =>
      intro hs
      obtain ⟨h1, h2⟩ := errorUpdate_spans hup s hs hid
      refine ⟨h1, og.clock cig - og.clock 0, h2, ?_⟩
      have := hmonog 0 cig (Nat.zero_le cig)
      omega

/-- Witness for C7 at concrete arguments (monotone integer clocks). -/
theorem c7_witness :
    ((catchPath oW dbW (.jStr "t") "r" (oW.clock 0) 1 0).acks = 1 ∧
      (catchPath oW dbW (.jStr "t") "r" (oW.clock 0) 1 0).nacks = 0) ∧
    ((gwCatch oG0 dbW ⟨0, 0, 0⟩ [] "r" (oG0.clock 0) 1 0).response = .pubError ∧
      (gwCatch oG0 dbW ⟨0, 0, 0⟩ [] "r" (oG0.clock 0) 1 0).st.counters.totalFailed =
        (0 : Nat) + 1) :=
  ⟨(c7_error_spans oW dbW (.jStr "t") "r" 1 0
      (fun _ _ h => Int.ofNat_le.mpr h) rfl
      oG0 dbW ⟨0, 0, 0⟩ [] "r" 1 0 (fun _ _ h => Int.ofNat_le.mpr h)).1,
    (c7_error_spans oW dbW (.jStr "t") "r" 1 0
      (fun _ _ h => Int.ofNat_le.mpr h) rfl
      oG0 dbW ⟨0, 0, 0⟩ [] "r" 1 0 (fun _ _ h => Int.ofNat_le.mpr h)).2.2.1⟩

theorem jval_beq_self (v : JVal) : (v == v) = true := JVal.beq_refl v

theorem listAny_congr {α : Type} {p q : α → Bool} (l : List α)
    (h : ∀ a, p a = q a) : l.any p = l.any q := by
  induction l with
  | nil => rfl
  | cons x xs ih => simp [List.any_cons, h, ih]

theorem anyTrue_append {α : Type} {l : List α} (l2 : List α) {p : α → Bool}
    (h : l.any p = true) : (l ++ l2).any p = true := by
  simp [List.any_append, h]

theorem spansOk_append (seen xs ys : List TraceSpan) :
    spansOk seen (xs ++ ys) = (spansOk seen xs && spansOk (seen ++ xs) ys) := by
  induction xs generalizing seen with
  | nil => simp [spansOk]
  | cons s rest ih =>
    simp only [List.cons_append, spansOk, List.append_eq, ih, Bool.and_assoc,
      List.append_assoc, List.singleton_append, List.nil_append]

theorem spansOk_snoc_parent (xs : List TraceSpan) (s0 : TraceSpan)
    (h : spansOk [] xs = true) (hp : parentOkIn xs s0 = true) :
    spansOk [] (xs ++ [s0]) = true := by
  rw [spansOk_append]
  simp only [List.nil_append, h, Bool.true_and, spansOk, hp, Bool.and_self]

theorem parentOkIn_none (seen : List TraceSpan) (s : TraceSpan)
    (hp : s.parentId = none) : parentOkIn seen s = true := by
  unfold parentOkIn
  rw [hp]

theorem parentOkIn_eq (seen : List TraceSpan) (s : TraceSpan) (p : String)
    (hp : s.parentId = some p) :
    parentOkIn seen s = seen.any (fun t => t.id == p && t.traceId == s.traceId) := by
  unfold parentOkIn
  rw [hp]

theorem spansOk_update_map (f : TraceSpan → TraceSpan)
    (hf : ∀ s, (f s).id = s.id ∧ (f s).parentId = s.parentId ∧
      (f s).traceId = s.traceId)
    (i : String) (seen xs : List TraceSpan) (h : spansOk seen xs = true) :
    spansOk (seen.map (fun s => if s.id == i then f s else s))
      (xs.map (fun s => if s.id == i then f s else s)) = true := by
  have hg : ∀ s, ((fun s => if s.id == i then f s else s) s).id = s.id ∧
      ((fun s => if s.id == i then f s else s) s).parentId = s.parentId ∧
      ((fun s => if s.id == i then f s else s) s).traceId = s.traceId := by
    intro s
    by_cases hc : (s.id == i) = true
    · simpa [hc] using hf s
    · simp [hc]
  induction xs generalizing seen with
  | nil => simp [spansOk]
  | cons s rest ih =>
    rw [spansOk, Bool.and_eq_true] at h
    obtain ⟨h1, h2⟩ := h
    rw [List.map_cons, spansOk, Bool.and_eq_true]
    refine ⟨?_, ?_⟩
    · cases hp : s.parentId with
      | none => rw [parentOkIn_none _ _ (by rw [(hg s).2.1, hp])]
      | some p =>
        rw [parentOkIn_eq _ _ p (by rw [(hg s).2.1, hp])]
        rw [parentOkIn_eq _ _ p hp] at h1
        rw [List.any_map]
        have hcomp : ((fun t => t.id == p && t.traceId ==
            (if s.id == i then f s else s).traceId) ∘
            (fun u => if u.id == i then f u else u)) =
            (fun t => t.id == p && t.traceId == s.traceId) := by
          funext t
          simp only [Function.comp_apply, (hg t).1, (hg t).2.2, (hg s).2.2]
        rw [hcomp]
        exact h1
    · have := ih (seen ++ [s]) h2
      simpa [List.map_append] using this

theorem catchPath_spansOk (o : WOracle) (db : DB) (tid : JVal) (rsid : String)
    (rs : Int) (ci di : Nat) (h : spansOk [] db.spans = true) :
    spansOk [] (catchPath o db tid rsid rs ci di).db.spans = true := by
  have hup : ∀ {f : TraceSpan → TraceSpan} {db' : DB},
      updateSpan db rsid f = some db' →
      (∀ s, (f s).id = s.id ∧ (f s).parentId = s.parentId ∧
        (f s).traceId = s.traceId) →
      spansOk [] db'.spans = true := by
    intro f db' hu hf
    obtain ⟨hsp, -, -, -, -⟩ := updateSpan_some_spans hu
    rw [hsp]
    simpa using spansOk_update_map f hf rsid [] db.spans h
  simp only [catchPath]
  repeat' split
  all_goals first
    | exact h
    | (rename_i heq; exact hup heq (fun _ => ⟨rfl, rfl, rfl⟩))

theorem finishRoot_spansOk (o : WOracle) (db : DB) (tid : JVal) (rsid : String)
    (rs : Int) (ci di : Nat) (h : spansOk [] db.spans = true) :
    spansOk [] (finishRoot o db tid rsid rs ci di).db.spans = true := by
  have hup : ∀ {f : TraceSpan → TraceSpan} {db' : DB},
      updateSpan db rsid f = some db' →
      (∀ s, (f s).id = s.id ∧ (f s).parentId = s.parentId ∧
        (f s).traceId = s.traceId) →
      spansOk [] db'.spans = true := by
    intro f db' hu hf
    obtain ⟨hsp, -, -, -, -⟩ := updateSpan_some_spans hu
    rw [hsp]
    simpa using spansOk_update_map f hf rsid [] db.spans h
  simp only [finishRoot]
  repeat' split
  all_goals first
    | (apply catchPath_spansOk; exact h)
    | (rename_i heq; exact hup heq (fun _ => ⟨rfl, rfl, rfl⟩))

theorem resumeTail_spansOk (o : WOracle) (data : JVal) (db : DB) (tid : JVal)
    (rsid : String) (rs : Int) (di : Nat) (h : spansOk [] db.spans = true)
    (hroot : db.spans.any (fun t => t.id == rsid && t.traceId == tid) = true) :
    spansOk [] (resumeTail o data db tid rsid rs di).db.spans = true := by
  simp only [resumeTail, addSpanAuto]
  repeat' split
  all_goals first
    | (apply catchPath_spansOk; exact h)
    | (apply finishRoot_spansOk
       exact spansOk_snoc_parent db.spans _ h hroot)

theorem resumeBranch_spansOk (o : WOracle) (data : JVal) (db : DB) (tid : JVal)
    (rsid : String) (rs : Int) (h : spansOk [] db.spans = true)
    (hroot : db.spans.any (fun t => t.id == rsid && t.traceId == tid) = true) :
    spansOk [] (resumeBranch o data db tid rsid rs).db.spans = true := by
  simp only [resumeBranch, addUsage]
  repeat' split
  all_goals first
    | (apply catchPath_spansOk; exact h)
    | (apply resumeTail_spansOk
       · exact h
       · exact hroot)

theorem agentBranch_spansOk (o : WOracle) (data source : JVal) (ag : Agent)
    (db : DB) (tid : JVal) (rsid : String) (rs : Int)
    (h : spansOk [] db.spans = true)
    (hroot : db.spans.any (fun t => t.id == rsid && t.traceId == tid) = true) :
    spansOk [] (agentBranch o data source ag db tid rsid rs).db.spans = true := by
  simp only [agentBranch, addTask, addUsage, addSpanAuto]
  repeat' split
  all_goals first
    | (apply catchPath_spansOk; first
        | exact h
        | exact spansOk_snoc_parent db.spans _ h hroot)
    | (apply finishRoot_spansOk
       exact spansOk_snoc_parent db.spans _ h hroot)

theorem normalBranch_spansOk (o : WOracle) (data : JVal) (db : DB) (tid : JVal)
    (rsid : String) (rs : Int) (h : spansOk [] db.spans = true)
    (hroot : db.spans.any (fun t => t.id == rsid && t.traceId == tid) = true) :
    spansOk [] (normalBranch o data db tid rsid rs).db.spans = true := by
  simp only [normalBranch, addSpanAuto]
  repeat' split
  all_goals first
    | (apply catchPath_spansOk; exact h)
    | (apply finishRoot_spansOk
       exact spansOk_snoc_parent db.spans _ h hroot)
    | (apply agentBranch_spansOk
       · exact spansOk_snoc_parent db.spans _ h hroot
       · exact anyTrue_append _ hroot)

theorem handleMessage_spansOk (o : WOracle) (msg : Message) (db : DB)
    (h : spansOk [] db.spans = true) :
    spansOk [] (handleMessage o msg db).db.spans = true := by
  simp only [handleMessage, addSpan]
  repeat' split
  all_goals first
    | (apply catchPath_spansOk; first
        | exact h
        | exact spansOk_snoc_parent db.spans _ h rfl)
    | (apply resumeBranch_spansOk
       · exact spansOk_snoc_parent db.spans _ h rfl
       · simp [List.any_append, jval_beq_self])
    | (apply normalBranch_spansOk
       · exact spansOk_snoc_parent db.spans _ h rfl
       · simp [List.any_append, jval_beq_self])

theorem gwCatch_spansOk (o : GOracle) (db : DB) (c : Counters)
    (q : List PubMessage) (rsid : String) (rs : Int) (ci di : Nat)
    (h : spansOk [] db.spans = true) :
    spansOk [] (gwCatch o db c q rsid rs ci di).st.db.spans = true := by
  have hup : ∀ {f : TraceSpan → TraceSpan} {db' : DB},
      updateSpan db rsid f = some db' →
      (∀ s, (f s).id = s.id ∧ (f s).parentId = s.parentId ∧
        (f s).traceId = s.traceId) →
      spansOk [] db'.spans = true := by
    intro f db' hu hf
    obtain ⟨hsp, -, -, -, -⟩ := updateSpan_some_spans hu
    rw [hsp]
    simpa using spansOk_update_map f hf rsid [] db.spans h
  simp only [gwCatch]
  repeat' split
  all_goals first
    | exact h
    | (rename_i heq; exact hup heq (fun _ => ⟨rfl, rfl, rfl⟩))

theorem webhookAccepted_spansOk (o : GOracle) (b : JVal) (st : GState)
    (rs : Int) (h : spansOk [] st.db.spans = true) :
    spansOk [] (webhookAccepted o b st rs).st.db.spans = true := by
  have hup : ∀ (db0 : DB), spansOk [] db0.spans = true →
      ∀ {f : TraceSpan → TraceSpan} {db' : DB},
      updateSpan db0 o.uuidRoot f = some db' →
      (∀ s, (f s).id = s.id ∧ (f s).parentId = s.parentId ∧
        (f s).traceId = s.traceId) →
      spansOk [] db'.spans = true := by
    intro db0 h0 f db' hu hf
    obtain ⟨hsp, -, -, -, -⟩ := updateSpan_some_spans hu
    rw [hsp]
    simpa using spansOk_update_map f hf o.uuidRoot [] db0.spans h0
  have hroot1 : spansOk [] (st.db.spans ++
      [(⟨o.uuidRoot, .jStr o.uuidTrace, none, "ingress", "webhook_receive", none,
        "OK", [("source", some (jsOr (b.getField "source") (.jStr "unknown")))]⟩ :
        TraceSpan)]) = true :=
    spansOk_snoc_parent st.db.spans _ h rfl
  simp only [webhookAccepted, addSpan, addSpanAuto]
  repeat' split
  all_goals first
    | exact h
    | (apply gwCatch_spansOk; first
        | exact hroot1
        | exact spansOk_snoc_parent _ _ hroot1 (by simp [parentOkIn,
            List.any_append, jval_beq_self]))
    | (rename_i heq; exact hup _ (spansOk_snoc_parent _ _ hroot1 (by
        simp [parentOkIn, List.any_append, jval_beq_self])) heq
        (fun _ => ⟨rfl, rfl, rfl⟩))

theorem webhook_spansOk (o : GOracle) (body : Option JVal) (st : GState)
    (h : spansOk [] st.db.spans = true) :
    spansOk [] (webhook o body st).st.db.spans = true := by
  cases body with
  | none => simpa [webhook] using h
  | some b =>
    by_cases hb : bodyAccepted (some b) = true
    · simp only [webhook, hb, if_true]
      exact webhookAccepted_spansOk o b st (o.clock 0) h
    · simpa [webhook, hb] using h

/-- Claim C8: the causal span-tree invariant — every non-root TraceSpan's
parentId references a span created earlier (the awaited root insert precedes
any child insert) with the same traceId — is preserved by every worker
message-handler run and every gateway webhook run, over any starting store
satisfying it. -/
theorem c8_span_parent_invariant (o : WOracle) (msg : Message) (db : DB)
    (hw : spansOk [] db.spans = true)
    (og : GOracle) (body : Option JVal) (st : GState)
    (hg : spansOk [] st.db.spans = true) :
    spansOk [] (handleMessage o msg db).db.spans = true ∧
    spansOk [] (webhook og body st).st.db.spans = true :=
  ⟨handleMessage_spansOk o msg db hw, webhook_spansOk og body st hg⟩

/-- Witness for C8 at concrete runs over stores with empty span tables. -/
theorem c8_witness :
    spansOk [] (handleMessage oW msgW dbW).db.spans = true ∧
    spansOk [] (webhook oG0 (some (.jObj [])) stG0).st.db.spans = true :=
  c8_span_parent_invariant oW msgW dbW rfl oG0 (some (.jObj [])) stG0 rfl

/-- Counterexample to claim C5 as stated: a JSON array body is not a JSON
object, yet `typeof [] === "object"` and `![]` is false, so the handler
accepts it — no 400 is returned and totalReceived is incremented. -/
theorem c5_counterexample :
    (webhook oG0 (some (.jArr [])) stG0).response = .ok "mid0" "tid0" ∧
    (webhook oG0 (some (.jArr [])) stG0).st.counters.totalReceived =
      stG0.counters.totalReceived + 1 :=
  ⟨rfl, rfl⟩

/-- Claim C5 (amended): POST /webhook responds 400 if and only if the request
body is missing, null, or a JSON primitive (string, number or boolean) —
arrays, though not JSON objects, are accepted; exactly the rejected cases
leave totalReceived unchanged, and every accepted body increments it. -/
theorem c5_reject_iff_object_typed (o : GOracle) (body : Option JVal)
    (st : GState) :
    ((webhook o body st).response = .badRequest ↔
      (body = none ∨ body = some .jNull ∨ (∃ s, body = some (.jStr s)) ∨
        (∃ n, body = some (.jNum n)) ∨ (∃ bb, body = some (.jBool bb)))) ∧
    ((webhook o body st).response = .badRequest →
      (webhook o body st).st.counters.totalReceived = st.counters.totalReceived) ∧
    ((webhook o body st).response ≠ .badRequest →
      (webhook o body st).st.counters.totalReceived =
        st.counters.totalReceived + 1) := by
  cases body with
  | none => simp [webhook]
  | some b =>
    cases b with
    | jObj fs =>
      obtain ⟨h1, h2⟩ := webhookAccepted_response_received o (.jObj fs) st (o.clock 0)
      simp [webhook, bodyAccepted, h1, h2]
    | jArr xs =>
      obtain ⟨h1, h2⟩ := webhookAccepted_response_received o (.jArr xs) st (o.clock 0)
      simp [webhook, bodyAccepted, h1, h2]
    | jNull => simp [webhook, bodyAccepted]
    | jBool bb => simp [webhook, bodyAccepted]
    | jNum n => simp [webhook, bodyAccepted]
    | jStr s => simp [webhook, bodyAccepted]

/-- Witness for the amended C5 at a concrete rejected body (null). -/
theorem c5_witness :
    (webhook oG0 (some .jNull) stG0).response = .badRequest ∧
    (webhook oG0 (some .jNull) stG0).st.counters.totalReceived =
      stG0.counters.totalReceived :=
  ⟨(c5_reject_iff_object_typed oG0 (some .jNull) stG0).1.mpr (Or.inr (Or.inl rfl)),
    (c5_reject_iff_object_typed oG0 (some .jNull) stG0).2.1
      ((c5_reject_iff_object_typed oG0 (some .jNull) stG0).1.mpr
        (Or.inr (Or.inl rfl)))⟩

/-- Counterexample to claim C9 as stated: for body `{source: 5}` the source is
truthy but not a string; the claim predicts the published source field is
"unknown", but the gateway publishes the number 5 itself. -/
theorem c9_counterexample :
    (webhook oG0 (some (.jObj [("source", .jNum 5)])) stG0).st.queue =
      [⟨.jObj [("source", .jNum 5), ("payload", .jObj [("source", .jNum 5)]),
          ("traceId", .jStr "tid0"), ("receivedAt", .jStr "at0")],
        [("traceId", "tid0")]⟩] ∧
    JVal.jNum 5 ≠ .jStr "unknown" :=
  ⟨rfl, fun h => JVal.noConfusion h⟩

/-- Claim C9 (amended): for every accepted JSON-object webhook body, when the
root-span insert and the publish succeed, the gateway publishes a message
whose source field is body.source whenever that is truthy (of any JSON type,
not only strings) and the literal "unknown" otherwise, and whose payload
field is body.payload when truthy and otherwise the entire request body; a
body missing source or payload is never rejected. -/
theorem c9_publish_shape (o : GOracle) (fs : List (String × JVal)) (st : GState)
    (h0 : o.dbFails 0 = false) (hp : o.pubFails = false) :
    (webhook o (some (.jObj fs)) st).st.queue = st.queue ++
      [⟨.jObj [("source", jsOr (fs.lookup "source") (.jStr "unknown")),
          ("payload", jsOr (fs.lookup "payload") (.jObj fs)),
          ("traceId", .jStr o.uuidTrace), ("receivedAt", .jStr o.receivedAt)],
        [("traceId", o.uuidTrace)]⟩] ∧
    (webhook o (some (.jObj fs)) st).response ≠ .badRequest := by
  obtain ⟨hnb, -⟩ := webhookAccepted_response_received o (.jObj fs) st (o.clock 0)
  constructor
  · simp only [webhook, bodyAccepted, webhookAccepted, JVal.getField, h0, hp,
      Bool.false_eq_true, if_false, ite_true, if_true]
    repeat' split
    all_goals first
      | rfl
      | rw [gwCatch_queue]
  · simpa [webhook, bodyAccepted] using hnb

/-- Witness for the amended C9 at the concrete body `{source: 5}`. -/
theorem c9_witness :
    (webhook oG0 (some (.jObj [("source", .jNum 5)])) stG0).st.queue =
      stG0.queue ++
      [⟨.jObj
          [("source", jsOr ([("source", JVal.jNum 5)].lookup "source") (.jStr "unknown")),
            ("payload", jsOr ([("source", JVal.jNum 5)].lookup "payload")
              (.jObj [("source", .jNum 5)])),
            ("traceId", .jStr oG0.uuidTrace), ("receivedAt", .jStr oG0.receivedAt)],
        [("traceId", oG0.uuidTrace)]⟩] ∧
    (webhook oG0 (some (.jObj [("source", .jNum 5)])) stG0).response ≠ .badRequest :=
  c9_publish_shape oG0 [("source", .jNum 5)] stG0 rfl rfl

theorem webhookAccepted_counters_cases (o : GOracle) (b : JVal) (st : GState)
    (rs : Int) (h : noPostPubFail o) :
    (webhookAccepted o b st rs).st.counters =
      { st.counters with totalReceived := st.counters.totalReceived + 1 } ∨
    (webhookAccepted o b st rs).st.counters =
      { st.counters with
          totalReceived := st.counters.totalReceived + 1
          totalFailed := st.counters.totalFailed + 1 } ∨
    (webhookAccepted o b st rs).st.counters =
      { st.counters with
          totalReceived := st.counters.totalReceived + 1
          totalPublished := st.counters.totalPublished + 1 } := by
  by_cases h0 : o.dbFails 0 = true
  · left
    simp [webhookAccepted, h0]
  · by_cases hp : o.pubFails = true
    · right; left
      simp [webhookAccepted, h0, hp, gwCatch_counters]
    · right; right
      obtain ⟨h1, h2⟩ := h (by revert hp; cases o.pubFails <;> simp)
      simp [webhookAccepted, updateSpan, spanExists, addSpan, addSpanAuto, h0, hp,
        h1, h2, List.any_append]

theorem webhook_counters_invariant (o : GOracle) (body : Option JVal)
    (st : GState) (h : noPostPubFail o)
    (hc : st.counters.totalPublished + st.counters.totalFailed ≤
      st.counters.totalReceived) :
    (webhook o body st).st.counters.totalPublished +
        (webhook o body st).st.counters.totalFailed ≤
      (webhook o body st).st.counters.totalReceived := by
  cases body with
  | none => simpa [webhook] using hc
  | some b =>
    by_cases hb : bodyAccepted (some b) = true
    · rcases webhookAccepted_counters_cases o b st (o.clock 0) h with h' | h' | h' <;>
        simp only [webhook, hb, if_true] <;> rw [h'] <;> simp <;> omega
    · simpa [webhook, hb] using hc

/-- Claim C10 (amended): after any sequence of webhook requests against a
single gateway process started with zeroed counters, provided no request both
publishes successfully and then fails a post-publish trace-span write, the
audit counters satisfy totalPublished + totalFailed ≤ totalReceived (strict
inequality arises when the root-span insert throws before publish). Without
that proviso the inequality can fail, because the catch around publish also
catches span-write failures after a successful publish and then increments
totalFailed as well. -/
theorem c10_sum_invariant (reqs : List (GOracle × Option JVal)) (db0 : DB)
    (q0 : List PubMessage)
    (h : ∀ r ∈ reqs, noPostPubFail r.1) :
    (webhookSeq reqs ⟨db0, ⟨0, 0, 0⟩, q0⟩).counters.totalPublished +
        (webhookSeq reqs ⟨db0, ⟨0, 0, 0⟩, q0⟩).counters.totalFailed ≤
      (webhookSeq reqs ⟨db0, ⟨0, 0, 0⟩, q0⟩).counters.totalReceived := by
  have main : ∀ (rs : List (GOracle × Option JVal)) (st : GState),
      (∀ r ∈ rs, noPostPubFail r.1) →
      st.counters.totalPublished + st.counters.totalFailed ≤
        st.counters.totalReceived →
      (webhookSeq rs st).counters.totalPublished +
          (webhookSeq rs st).counters.totalFailed ≤
        (webhookSeq rs st).counters.totalReceived := by
    intro rs
    induction rs with
    | nil => intro st _ hc; simpa [webhookSeq] using hc
    | cons r rest ih =>
      intro st hall hc
      obtain ⟨o, b⟩ := r
      simp only [webhookSeq]
      exact ih (webhook o b st).st
        (fun x hx => hall x (List.mem_cons_of_mem _ hx))
        (webhook_counters_invariant o b st (hall _ (List.mem_cons_self _ _)) hc)
  exact main reqs _ h (by simp)

/-- Counterexample to claim C10 as stated: one request where publish succeeds
and the following child-span insert throws increments totalReceived once but
both totalPublished and totalFailed, so their sum exceeds totalReceived. -/
theorem c10_counterexample :
    (webhook oGspanFail (some (.jObj [])) stG0).st.counters.totalPublished +
        (webhook oGspanFail (some (.jObj [])) stG0).st.counters.totalFailed >
      (webhook oGspanFail (some (.jObj [])) stG0).st.counters.totalReceived := by
  have h : (webhook oGspanFail (some (.jObj [])) stG0).st.counters = ⟨1, 1, 1⟩ := rfl
  rw [h]
  decide

/-- Witness for the amended C10 over a concrete two-request sequence (one
success, one publish failure). -/
theorem c10_witness :
    (webhookSeq [(oG0, some (.jObj [])), (oGpubFail, some (.jObj []))]
        ⟨dbE, ⟨0, 0, 0⟩, []⟩).counters.totalPublished +
        (webhookSeq [(oG0, some (.jObj [])), (oGpubFail, some (.jObj []))]
          ⟨dbE, ⟨0, 0, 0⟩, []⟩).counters.totalFailed ≤
      (webhookSeq [(oG0, some (.jObj [])), (oGpubFail, some (.jObj []))]
        ⟨dbE, ⟨0, 0, 0⟩, []⟩).counters.totalReceived :=
  c10_sum_invariant [(oG0, some (.jObj [])), (oGpubFail, some (.jObj []))] dbE []
    (by
      intro r hr
      simp only [List.mem_cons, List.mem_singleton] at hr
      rcases hr with rfl | rfl | h'
      · exact fun _ => ⟨rfl, rfl⟩
      · exact fun hp => absurd hp (by decide)
      · cases h')

end EGAP
